import Mathlib

/-!
# Verification of `chaco` LOD image plot (`lod_image_plot.py`, `data_label.py`)

Shallow embedding of `LODImagePlot` and the `data_label` re-export shim.
External dependencies that are not part of this repository (the `encore`
Serializer, the `LODImageSource` data source, the `ImagePlot` superclass and
the traits notification framework) are modelled abstractly: their behaviour
enters either as parameters of the embedded functions or, where a claim is
about them, as definitions modelled from the spec (marked as such).

Python floats are modelled as rationals (`ℚ`); Python ints as `ℤ`; Python
`int()` truncation toward zero as `pytrunc`.
-/

/-- Python `int()` applied to a rational: truncation toward zero. -/
def pytrunc (q : ℚ) : ℤ := if 0 ≤ q then ⌊q⌋ else ⌈q⌉

/-- Abstract environment for a `LODImagePlot`: the pieces supplied by the
`LODImageSource` value (`get_width`, `get_height`, `get_data_bounded`),
the `ImagePlot` superclass (`_calc_virtual_screen_bbox`,
`_kiva_array_from_numpy_array`) and the cached `necessary_lod` property
value.  Data arrays are modelled as `List ℚ`, kiva images as `ℕ` tokens. -/
structure ImageSourceEnv where
  getWidth : ℤ
  getHeight : ℤ
  getDataBounded : Option (ℤ × ℤ × ℤ × ℤ) → ℤ → List ℚ
  kivaFromNumpy : List ℚ → ℕ
  virtualScreenBbox : ℚ × ℚ × ℚ × ℚ
  necessaryLod : ℤ

/-- The mutable state of a `LODImagePlot` that the claims are about.
`serializerPending` counts jobs queued in the object's serializer;
`superInvalidateCalls`, `newCacheReadyFires` and `redrawRequests` count
calls into the superclass / traits framework. -/
structure PlotState where
  lod : ℤ
  maximumLod : ℤ
  drawBounds : ℚ × ℚ × ℚ × ℚ
  boundsW : ℚ
  boundsH : ℚ
  xAxisIsFlipped : Bool
  yAxisIsFlipped : Bool
  imageCacheValid : Bool
  cachedImage : Option ℕ
  cachedDestRect : Option (ℚ × ℚ × ℚ × ℚ)
  serializerPending : ℕ
  superInvalidateCalls : ℕ
  newCacheReadyFires : ℕ
  redrawRequests : ℕ
deriving DecidableEq

/-- `LODImagePlot._calc_zoom_coords`.  Returns `none` for the Python
`(None, None)` result.  Divisions are rational; the Python code would raise
`ZeroDivisionError` on a zero image width/height, so callers only rely on
this definition when those are nonzero. -/
def calc_zoom_coords (env : ImageSourceEnv) (s : PlotState)
    (imageRect : ℚ × ℚ × ℚ × ℚ) :
    Option ((ℤ × ℤ × ℤ × ℤ) × (ℚ × ℚ × ℚ × ℚ)) :=
  let subX := s.drawBounds.1
  let subY := s.drawBounds.2.1
  let subW := s.drawBounds.2.2.1
  let subH := s.drawBounds.2.2.2
  if subW = 0 ∨ subH = 0 ∨ s.boundsW = 0 ∨ s.boundsH = 0 then none
  else
    let imageX := imageRect.1
    let imageY := imageRect.2.1
    let imageW := imageRect.2.2.1
    let imageH := imageRect.2.2.2
    let arrayWidth : ℤ := env.getWidth - 1
    let arrayHeight : ℤ := env.getHeight - 1
    let colMin0 := pytrunc ((subX - imageX) / imageW * arrayWidth)
    let colMax0 := pytrunc ((subX - imageX + subW) / imageW * arrayWidth)
    let rowMin0 := pytrunc ((subY - imageY) / imageH * arrayHeight)
    let rowMax0 := pytrunc ((subY - imageY + subH) / imageH * arrayHeight)
    -- Clip index bounds to the array bounds.
    let colMin1 := max colMin0 0
    let colMax1 := min colMax0 arrayWidth
    let rowMin1 := max rowMin0 0
    let rowMax1 := min rowMax0 arrayHeight
    -- Flip indexes after calculating screen coordinates.
    let rowMin2 := if s.yAxisIsFlipped then arrayHeight - rowMax1 else rowMin1
    let rowMax2 := if s.yAxisIsFlipped then arrayHeight - rowMin1 else rowMax1
    let colMin2 := if s.xAxisIsFlipped then arrayWidth - colMax1 else colMin1
    let colMax2 := if s.xAxisIsFlipped then arrayWidth - colMin1 else colMax1
    some ((colMin2, colMax2, rowMin2, rowMax2), s.drawBounds)

/-- `LODImagePlot._get_data_slice`: fetch data by nominal index bounds and
apply the optional `mapper` when the slice is nonempty. -/
def get_data_slice (env : ImageSourceEnv) (indexBounds : Option (ℤ × ℤ × ℤ × ℤ))
    (lod : ℤ) (mapper : Option (List ℚ → List ℚ)) : List ℚ :=
  let data := env.getDataBounded indexBounds lod
  match mapper with
  | some m => if 0 < data.length then m data else data
  | none => data

/-- The LOD update at the end of `LODImagePlot._compute_cached_image`:
`if self.lod > self.necessary_lod: self.lod -= 1`. -/
def lodAfterCompute (nec lod : ℤ) : ℤ :=
  if nec < lod then lod - 1 else lod

/-- `LODImagePlot._compute_cached_image`: computes sub-image coordinates,
caches the sliced image and its destination rectangle, marks the cache
valid, fires `new_cache_ready`, and moves `lod` one step toward
`necessary_lod`. -/
def compute_cached_image (env : ImageSourceEnv)
    (mapper : Option (List ℚ → List ℚ)) (s : PlotState) : PlotState :=
  let zoom := calc_zoom_coords env s env.virtualScreenBbox
  let indexBounds := zoom.map Prod.fst
  let screenRect := zoom.map Prod.snd
  let data := get_data_slice env indexBounds s.lod mapper
  { s with
    cachedImage := some (env.kivaFromNumpy data)
    cachedDestRect := screenRect
    imageCacheValid := true
    newCacheReadyFires := s.newCacheReadyFires + 1
    lod := lodAfterCompute env.necessaryLod s.lod }

/-- `LODImagePlot.invalidate_draw`: invalidates the image cache and calls the
superclass `invalidate_draw` (counted). -/
def invalidate_draw (s : PlotState) : PlotState :=
  { s with imageCacheValid := false
           superInvalidateCalls := s.superInvalidateCalls + 1 }

/-- `LODImagePlot.handle_draw_bounds_change`: resets `lod` to `maximum_lod`,
clears the serializer's pending-operations queue, and invalidates the draw. -/
def handle_draw_bounds_change (s : PlotState) : PlotState :=
  invalidate_draw { s with lod := s.maximumLod, serializerPending := 0 }

/-- `LODImagePlot.handle_new_cached` (traits handler for `new_cache_ready`,
dispatched on the UI event loop): requests a redraw (counted). -/
def handle_new_cached (s : PlotState) : PlotState :=
  { s with redrawRequests := s.redrawRequests + 1 }

/-- `LODImagePlot._render`: submits `_compute_cached_image` to the serializer
exactly when the image cache is invalid (drawing of the already-cached image
has no effect on this state). -/
def render (s : PlotState) : PlotState :=
  if s.imageCacheValid then s
  else { s with serializerPending := s.serializerPending + 1 }

/-- Events driving a `LODImagePlot` between cache invalidation and
recomputation: a cache invalidation, a `_render` call from the draw loop,
and the completion of a queued `_compute_cached_image` job (which the
serializer pops from its queue before running; `mapper` is `None` for jobs
submitted by `_render`). -/
inductive PlotEv where
  | invalidateDraw : PlotEv
  | render : PlotEv
  | completeCompute : PlotEv
deriving DecidableEq

/-- One step of the plot's event machine. -/
def plotStep (env : ImageSourceEnv) (s : PlotState) : PlotEv → PlotState
  | .invalidateDraw => invalidate_draw s
  | .render => render s
  | .completeCompute =>
      if s.serializerPending = 0 then s
      else compute_cached_image env none
        { s with serializerPending := s.serializerPending - 1 }

/-- Run a list of events. -/
def runEvents (env : ImageSourceEnv) (s : PlotState) : List PlotEv → PlotState
  | [] => s
  | e :: evs => runEvents env (plotStep env s e) evs

/-- Number of jobs `_render` submits to the serializer over a list of
events: one for each `render` event that occurs while the cache is
invalid. -/
def submitsDuring (env : ImageSourceEnv) (s : PlotState) : List PlotEv → ℕ
  | [] => 0
  | e :: evs =>
      (if e = PlotEv.render ∧ s.imageCacheValid = false then 1 else 0) +
        submitsDuring env (plotStep env s e) evs

/-- The loop-continue condition of `LODImagePlot._get_necessary_lod`:
`(col_max - col_min) < screen_size[0] or (row_max - row_min) < screen_size[1]`
for the LOD-image bounds `lodBounds lod` returned by
`value.lod_bounds_from_nominal_bounds(index_bounds, lod)` (the index bounds
are fixed over the loop, so `lodBounds` takes only the lod). -/
def lodTooSmall (lodBounds : ℤ → ℚ × ℚ × ℚ × ℚ) (sw sh : ℚ) (lod : ℤ) :
    Bool :=
  let b := lodBounds lod
  decide (b.2.1 - b.1 < sw) || decide (b.2.2.2 - b.2.2.1 < sh)

/-- The condition the claims describe: the LOD-image bounds at `lod` span at
least the screen size in both dimensions. -/
def spansScreen (lodBounds : ℤ → ℚ × ℚ × ℚ × ℚ) (sw sh : ℚ) (lod : ℤ) :
    Prop :=
  let b := lodBounds lod
  sw ≤ b.2.1 - b.1 ∧ sh ≤ b.2.2.2 - b.2.2.1

instance (lodBounds : ℤ → ℚ × ℚ × ℚ × ℚ) (sw sh : ℚ) (lod : ℤ) :
    Decidable (spansScreen lodBounds sw sh lod) := by
  unfold spansScreen; infer_instance

/-- The `while` loop of `LODImagePlot._get_necessary_lod`, with explicit
fuel since the Python loop need not terminate: starting at `lod`, decrement
while `lodTooSmall` holds; `none` means the fuel ran out (the Python loop is
still running). -/
def get_necessary_lod (small : ℤ → Bool) : ℕ → ℤ → Option ℤ
  | 0, lod => if small lod then none else some lod
  | fuel + 1, lod =>
      if small lod then get_necessary_lod small fuel (lod - 1) else some lod

/-- Modelled from the spec: the `encore` Serializer (not part of this
repository) "serializes" background jobs — "at most one in-flight job per
object" — holding not-yet-started jobs in a pending-operations queue that
`handle_draw_bounds_change` clears.  Jobs are `ℕ` tokens; `running` is a
list so that single-flight is a provable invariant, not a typing artifact. -/
structure SerializerState where
  pending : List ℕ
  running : List ℕ
deriving DecidableEq

/-- Events on a serializer: submitting a job, a running job completing
(the next pending job, if any, then starts), and clearing the
pending-operations queue. -/
inductive SerEvent where
  | submit : ℕ → SerEvent
  | complete : SerEvent
  | clear : SerEvent
deriving DecidableEq

/-- Modelled from the spec: one step of the serializer.  A submitted job
starts immediately when nothing is in flight and queues otherwise; on
completion the head of the queue (if any) starts. -/
def serStep (s : SerializerState) : SerEvent → SerializerState
  | .submit j =>
      if s.running.isEmpty then { s with running := [j] }
      else { s with pending := s.pending ++ [j] }
  | .complete =>
      match s.running with
      | [] => s
      | _ :: _ =>
          match s.pending with
          | [] => { pending := [], running := [] }
          | p :: ps => { pending := ps, running := [p] }
  | .clear => { s with pending := [] }

/-- A serializer starts with nothing queued and nothing in flight. -/
def serInit : SerializerState := { pending := [], running := [] }

/-- Outcome of importing the `chaco.lod_image_plot` module. -/
inductive ImportOutcome where
  | ok : ImportOutcome
  | exited : String → ImportOutcome
deriving DecidableEq

/-- The `try: from encore... except ImportError: sys.exit(...)` block at the
top of `lod_image_plot.py`, as a function of whether `encore` is
importable. -/
def import_lod_image_plot (encoreAvailable : Bool) : ImportOutcome :=
  if encoreAvailable then ImportOutcome.ok
  else ImportOutcome.exited "encore must be installed to use LODImagePlot"

/-- The names a module exporting `DataLabel`, `draw_arrow` and `find_region`
binds (the values live in arbitrary types, since `chaco.overlays.data_label`
is not part of this repository). -/
structure DataLabelExports (α β γ : Type) where
  dataLabel : α
  drawArrow : β
  findRegion : γ

/-- `chaco/data_label.py`: importing the module re-binds the three names from
`chaco.overlays.data_label` and emits one `DeprecationWarning`; it defines
nothing else.  The result is the shim's exports and its warning list. -/
def data_label_module {α β γ : Type} (overlays : DataLabelExports α β γ) :
    DataLabelExports α β γ × List String :=
  (⟨overlays.dataLabel, overlays.drawArrow, overlays.findRegion⟩,
   ["DeprecationWarning: Importing DataLabel, draw_arrow, or find_region " ++
    "from this module is deprecated. Please use chaco.api or " ++
    "chaco.overlays.api instead. This module will be removed in the next " ++
    "major release."])

/-- LOD bounds used in concrete witnesses: at lod `l` the image spans
`10 - l` pixels in each dimension. -/
def lodBoundsW (l : ℤ) : ℚ × ℚ × ℚ × ℚ :=
  (0, ((10 - l : ℤ) : ℚ), 0, ((10 - l : ℤ) : ℚ))

/-- A concrete environment used in witnesses and counterexamples: an 11×11
source image rendered into a 100×100 virtual rect. -/
def env0 : ImageSourceEnv where
  getWidth := 11
  getHeight := 11
  getDataBounded := fun _ _ => []
  kivaFromNumpy := fun _ => 0
  virtualScreenBbox := (0, 0, 100, 100)
  necessaryLod := 0

/-- A concrete plot state used in witnesses and counterexamples. -/
def s0 : PlotState where
  lod := 9
  maximumLod := 9
  drawBounds := (0, 0, 50, 50)
  boundsW := 50
  boundsH := 50
  xAxisIsFlipped := false
  yAxisIsFlipped := false
  imageCacheValid := true
  cachedImage := none
  cachedDestRect := none
  serializerPending := 0
  superInvalidateCalls := 0
  newCacheReadyFires := 0
  redrawRequests := 0

/-- A plot state whose draw bounds lie entirely to the left of the rendered
image rect, used as a counterexample input. -/
def sCex : PlotState where
  lod := 9
  maximumLod := 9
  drawBounds := (-200, 0, 10, 10)
  boundsW := 50
  boundsH := 50
  xAxisIsFlipped := false
  yAxisIsFlipped := false
  imageCacheValid := true
  cachedImage := none
  cachedDestRect := none
  serializerPending := 0
  superInvalidateCalls := 0
  newCacheReadyFires := 0
  redrawRequests := 0

/-! ## Helper lemmas -/

lemma spansScreen_iff_not_small (lodBounds : ℤ → ℚ × ℚ × ℚ × ℚ)
    (sw sh : ℚ) (lod : ℤ) :
    spansScreen lodBounds sw sh lod ↔
      lodTooSmall lodBounds sw sh lod = false := by
  unfold spansScreen lodTooSmall
  simp [not_lt]

lemma get_necessary_lod_spec (small : ℤ → Bool) :
    ∀ (fuel : ℕ) (maxLod l : ℤ),
      get_necessary_lod small fuel maxLod = some l →
      small l = false ∧ l ≤ maxLod ∧
        ∀ l', l < l' → l' ≤ maxLod → small l' = true := by
  intro fuel
  induction fuel with
  | zero =>
    intro maxLod l h
    unfold get_necessary_lod at h
    by_cases hs : small maxLod
    · simp [hs] at h
    · rw [if_neg hs] at h
      obtain rfl : maxLod = l := by simpa using h
      refine ⟨by simpa using hs, le_refl _, fun l' h1 h2 => absurd h2 ?_⟩
      omega
  | succ n ih =>
    intro maxLod l h
    unfold get_necessary_lod at h
    by_cases hs : small maxLod
    · rw [if_pos hs] at h
      obtain ⟨h1, h2, h3⟩ := ih (maxLod - 1) l h
      refine ⟨h1, by omega, fun l' hl1 hl2 => ?_⟩
      by_cases he : l' = maxLod
      · subst he; exact hs
      · exact h3 l' hl1 (by omega)
    · rw [if_neg hs] at h
      obtain rfl : maxLod = l := by simpa using h
      refine ⟨by simpa using hs, le_refl _, fun l' h1 h2 => absurd h2 ?_⟩
      omega

lemma get_necessary_lod_total (small : ℤ → Bool) :
    ∀ (n : ℕ) (maxLod l : ℤ), maxLod - n ≤ l → l ≤ maxLod →
      small l = false → (get_necessary_lod small n maxLod).isSome = true := by
  intro n
  induction n with
  | zero =>
    intro maxLod l h1 h2 h3
    obtain rfl : l = maxLod := by omega
    unfold get_necessary_lod
    simp [h3]
  | succ n ih =>
    intro maxLod l h1 h2 h3
    unfold get_necessary_lod
    by_cases hs : small maxLod
    · rw [if_pos hs]
      have hne : l ≠ maxLod := by
        intro he; rw [he, hs] at h3; cases h3
      exact ih (maxLod - 1) l (by omega) (by omega) h3
    · simp [hs]

/-! ## C1 and C7: the necessary-LOD computation -/

/-- C1: whenever the `_get_necessary_lod` loop terminates, its result is the
largest lod not exceeding `maximum_lod` whose LOD-image bounds span at least
the screen size in both dimensions. -/
theorem necessary_lod_greatest (lodBounds : ℤ → ℚ × ℚ × ℚ × ℚ) (sw sh : ℚ)
    (fuel : ℕ) (maxLod l : ℤ)
    (h : get_necessary_lod (lodTooSmall lodBounds sw sh) fuel maxLod = some l) :
    l ≤ maxLod ∧ spansScreen lodBounds sw sh l ∧
      ∀ l', l' ≤ maxLod → spansScreen lodBounds sw sh l' → l' ≤ l := by
  obtain ⟨h1, h2, h3⟩ := get_necessary_lod_spec _ fuel maxLod l h
  refine ⟨h2, (spansScreen_iff_not_small _ _ _ _).mpr h1, fun l' hl hsp => ?_⟩
  by_contra hgt
  push_neg at hgt
  have hsmall := h3 l' hgt hl
  rw [spansScreen_iff_not_small] at hsp
  rw [hsp] at hsmall
  cases hsmall

theorem necessary_lod_greatest_witness :
    (7 : ℤ) ≤ 9 ∧ spansScreen lodBoundsW 3 3 7 ∧
      ∀ l', l' ≤ (9 : ℤ) → spansScreen lodBoundsW 3 3 l' → l' ≤ 7 :=
  necessary_lod_greatest lodBoundsW 3 3 5 9 7 (by
    norm_num [get_necessary_lod, lodTooSmall, lodBoundsW])

/-- C7: the `_get_necessary_lod` loop terminates (some fuel suffices) if and
only if some lod ≤ `maximum_lod` — negative values included — has LOD-image
bounds spanning at least the screen size in both dimensions; otherwise the
loop decrements forever and no amount of fuel yields a result. -/
theorem necessary_lod_terminates_iff (lodBounds : ℤ → ℚ × ℚ × ℚ × ℚ)
    (sw sh : ℚ) (maxLod : ℤ) :
    (∃ fuel, (get_necessary_lod (lodTooSmall lodBounds sw sh) fuel
        maxLod).isSome = true) ↔
      ∃ l, l ≤ maxLod ∧ spansScreen lodBounds sw sh l := by
  constructor
  · rintro ⟨fuel, hf⟩
    obtain ⟨l, hl⟩ := Option.isSome_iff_exists.mp hf
    obtain ⟨h1, h2, _⟩ := get_necessary_lod_spec _ fuel maxLod l hl
    exact ⟨l, h2, (spansScreen_iff_not_small _ _ _ _).mpr h1⟩
  · rintro ⟨l, hl, hsp⟩
    exact ⟨(maxLod - l).toNat,
      get_necessary_lod_total _ _ maxLod l (by omega) hl
        ((spansScreen_iff_not_small _ _ _ _).mp hsp)⟩

/-! ## C3: progressive refinement of the LOD level -/

lemma lodAfterCompute_iterate (nec maxLod : ℤ) (h : nec ≤ maxLod) (k : ℕ) :
    (lodAfterCompute nec)^[k] maxLod = max (maxLod - k) nec := by
  induction k with
  | zero => simp; omega
  | succ n ih =>
    rw [Function.iterate_succ_apply', ih]
    unfold lodAfterCompute
    split <;> push_cast <;> omega

/-- C3: under fixed draw bounds (so fixed `necessary_lod = nec ≤
maximum_lod`), the `lod` trace produced by successive completed
`_compute_cached_image` runs starting at `maximum_lod` is non-increasing,
drops by exactly 1 precisely while above `nec`, never falls below `nec`, and
equals `nec` from step `maximum_lod - nec` on. -/
theorem lod_refines_to_necessary (nec maxLod : ℤ) (h : nec ≤ maxLod)
    (k : ℕ) :
    (lodAfterCompute nec)^[k + 1] maxLod ≤ (lodAfterCompute nec)^[k] maxLod ∧
    ((lodAfterCompute nec)^[k + 1] maxLod =
        (lodAfterCompute nec)^[k] maxLod - 1 ↔
      nec < (lodAfterCompute nec)^[k] maxLod) ∧
    nec ≤ (lodAfterCompute nec)^[k] maxLod ∧
    ((maxLod - nec).toNat ≤ k → (lodAfterCompute nec)^[k] maxLod = nec) := by
  have h1 := lodAfterCompute_iterate nec maxLod h k
  have h2 := lodAfterCompute_iterate nec maxLod h (k + 1)
  rw [h1, h2]
  push_cast
  omega

theorem lod_refines_to_necessary_witness :
    (lodAfterCompute 2)^[1 + 1] 5 ≤ (lodAfterCompute 2)^[1] 5 ∧
    ((lodAfterCompute 2)^[1 + 1] 5 = (lodAfterCompute 2)^[1] 5 - 1 ↔
      2 < (lodAfterCompute 2)^[1] 5) ∧
    (2 : ℤ) ≤ (lodAfterCompute 2)^[1] 5 ∧
    (((5 : ℤ) - 2).toNat ≤ 1 → (lodAfterCompute 2)^[1] 5 = 2) :=
  lod_refines_to_necessary 2 5 (by decide) 1

/-! ## C2: job submission per invalidation -/

lemma render_imageCacheValid (s : PlotState) :
    (render s).imageCacheValid = s.imageCacheValid := by
  unfold render
  split <;> rfl

lemma submitsDuring_all_renders (env : ImageSourceEnv) :
    ∀ (evs : List PlotEv) (s : PlotState), s.imageCacheValid = false →
      (∀ e ∈ evs, e = PlotEv.render) →
      submitsDuring env s evs = evs.length := by
  intro evs
  induction evs with
  | nil => intro s _ _; rfl
  | cons e evs ih =>
    intro s hinv hall
    obtain rfl : e = PlotEv.render := hall e (by simp)
    have hstep : (plotStep env s PlotEv.render).imageCacheValid = false := by
      show (render s).imageCacheValid = false
      rw [render_imageCacheValid]; exact hinv
    have hih := ih (plotStep env s PlotEv.render) hstep
      (fun e he => hall e (by simp [he]))
    calc submitsDuring env s (PlotEv.render :: evs)
        = 1 + submitsDuring env (plotStep env s PlotEv.render) evs := by
          simp [submitsDuring, hinv]
      _ = 1 + evs.length := by rw [hih]
      _ = (PlotEv.render :: evs).length := by rw [List.length_cons]; omega

/-- C2 counterexample: starting from a freshly invalidated state, two
`_render` calls with no intervening job completion submit two jobs to the
serializer while the cache stays invalid — more than once within a single
invalidation. -/
theorem render_double_submission :
    (invalidate_draw s0).imageCacheValid = false ∧
    (runEvents env0 (invalidate_draw s0)
        [PlotEv.render, PlotEv.render]).imageCacheValid = false ∧
    submitsDuring env0 (invalidate_draw s0)
        [PlotEv.render, PlotEv.render] = 2 :=
  ⟨rfl, rfl, rfl⟩

/-- C2 amended: `_render` submits `_compute_cached_image` if and only if
`_image_cache_valid` is `False`, and it does so on every such call: while
the cache stays invalid, `n` render calls submit `n` jobs, one per call
(not at most one per invalidation). -/
theorem render_submits_iff_invalid (env : ImageSourceEnv) (s : PlotState)
    (evs : List PlotEv) (hinv : s.imageCacheValid = false)
    (hall : ∀ e ∈ evs, e = PlotEv.render) :
    (∀ t : PlotState, (render t).serializerPending =
        t.serializerPending + (if t.imageCacheValid = false then 1 else 0)) ∧
    submitsDuring env s evs = evs.length := by
  refine ⟨fun t => ?_, submitsDuring_all_renders env evs s hinv hall⟩
  unfold render
  by_cases h : t.imageCacheValid <;> simp [h]

theorem render_submits_iff_invalid_witness :
    (∀ t : PlotState, (render t).serializerPending =
        t.serializerPending + (if t.imageCacheValid = false then 1 else 0)) ∧
    submitsDuring env0 (invalidate_draw s0) [PlotEv.render, PlotEv.render] =
      [PlotEv.render, PlotEv.render].length :=
  render_submits_iff_invalid env0 (invalidate_draw s0)
    [PlotEv.render, PlotEv.render] rfl (by decide)

/-! ## C4: the draw-bounds change handler -/

/-- C4: on every change of `draw_bounds`, `handle_draw_bounds_change` resets
`lod` to `maximum_lod`, clears the serializer's pending-operations queue,
sets `_image_cache_valid` to `False` and calls the superclass
`invalidate_draw`. -/
theorem handle_draw_bounds_change_spec (s : PlotState) :
    (handle_draw_bounds_change s).lod = s.maximumLod ∧
    (handle_draw_bounds_change s).serializerPending = 0 ∧
    (handle_draw_bounds_change s).imageCacheValid = false ∧
    (handle_draw_bounds_change s).superInvalidateCalls =
      s.superInvalidateCalls + 1 :=
  ⟨rfl, rfl, rfl, rfl⟩

/-! ## C5: single-flight serialization -/

lemma serStep_single_flight (s : SerializerState) (e : SerEvent)
    (h : s.running.length ≤ 1) : (serStep s e).running.length ≤ 1 := by
  cases e with
  | submit j =>
    simp only [serStep]
    split
    · simp
    · simpa using h
  | complete =>
    simp only [serStep]
    rcases hr : s.running with _ | ⟨r, rs⟩
    · simp [hr]
    · rcases hp : s.pending with _ | ⟨p, ps⟩ <;> simp [hr, hp]
  | clear =>
    simp only [serStep]
    simpa using h

/-- C5: starting from an idle serializer, after any sequence of submissions,
completions, and queue clears, at most one job is in flight — background
cache computation is single-flight per object. -/
theorem serializer_single_flight (evs : List SerEvent) :
    ((evs.foldl serStep serInit).running).length ≤ 1 := by
  suffices h : ∀ s : SerializerState, s.running.length ≤ 1 →
      ((evs.foldl serStep s).running).length ≤ 1 by
    exact h serInit (by simp [serInit])
  induction evs with
  | nil => intro s hs; simpa using hs
  | cons e evs ih =>
    intro s hs
    exact ih (serStep s e) (serStep_single_flight s e hs)

/-! ## C6: effects of a completed cache computation -/

/-- C6: every completed `_compute_cached_image` run caches the kiva image
built from the data slice at the current zoom index bounds and `lod`, sets
`_cached_dest_rect` to the screen rectangle, marks the cache valid and fires
`new_cache_ready`; its UI-dispatched handler then requests a redraw. -/
theorem compute_cached_image_spec (env : ImageSourceEnv)
    (mapper : Option (List ℚ → List ℚ)) (s : PlotState) :
    (compute_cached_image env mapper s).cachedImage =
      some (env.kivaFromNumpy (get_data_slice env
        ((calc_zoom_coords env s env.virtualScreenBbox).map Prod.fst)
        s.lod mapper)) ∧
    (compute_cached_image env mapper s).cachedDestRect =
      (calc_zoom_coords env s env.virtualScreenBbox).map Prod.snd ∧
    (compute_cached_image env mapper s).imageCacheValid = true ∧
    (compute_cached_image env mapper s).newCacheReadyFires =
      s.newCacheReadyFires + 1 ∧
    (handle_new_cached (compute_cached_image env mapper s)).redrawRequests =
      (compute_cached_image env mapper s).redrawRequests + 1 :=
  ⟨rfl, rfl, rfl, rfl, rfl⟩

/-! ## C9: import-time behaviour without encore -/

/-- C9: importing `chaco.lod_image_plot` exits the process with the message
about the missing `encore` dependency exactly when `encore` cannot be
imported, and succeeds otherwise. -/
theorem import_exits_without_encore :
    import_lod_image_plot false =
      ImportOutcome.exited "encore must be installed to use LODImagePlot" ∧
    import_lod_image_plot true = ImportOutcome.ok :=
  ⟨rfl, rfl⟩

/-! ## C10: the data_label re-export shim -/

/-- C10: `chaco.data_label` re-exports `DataLabel`, `draw_arrow` and
`find_region` unchanged from `chaco.overlays.data_label` and emits exactly
one `DeprecationWarning`, with no other effect. -/
theorem data_label_is_reexport_shim {α β γ : Type}
    (overlays : DataLabelExports α β γ) :
    (data_label_module overlays).1.dataLabel = overlays.dataLabel ∧
    (data_label_module overlays).1.drawArrow = overlays.drawArrow ∧
    (data_label_module overlays).1.findRegion = overlays.findRegion ∧
    (data_label_module overlays).2 =
      ["DeprecationWarning: Importing DataLabel, draw_arrow, or " ++
       "find_region from this module is deprecated. Please use chaco.api " ++
       "or chaco.overlays.api instead. This module will be removed in the " ++
       "next major release."] :=
  ⟨rfl, rfl, rfl, by
    unfold data_label_module
    simp⟩

/-! ## C8: bounds of `_calc_zoom_coords` -/

lemma pytrunc_nonneg (q : ℚ) (h : 0 ≤ q) : 0 ≤ pytrunc q := by
  unfold pytrunc
  rw [if_pos h]
  exact Int.floor_nonneg.mpr h

lemma pytrunc_mono (a b : ℚ) (h : a ≤ b) : pytrunc a ≤ pytrunc b := by
  unfold pytrunc
  by_cases ha : 0 ≤ a
  · rw [if_pos ha, if_pos (le_trans ha h)]
    exact Int.floor_mono h
  · rw [if_neg ha]
    by_cases hb : 0 ≤ b
    · rw [if_pos hb]
      have h1 : ⌈a⌉ ≤ 0 := Int.ceil_le.mpr (by push_cast; linarith)
      have h2 : 0 ≤ ⌊b⌋ := Int.floor_nonneg.mpr hb
      omega
    · rw [if_neg hb]
      exact Int.ceil_mono h

lemma pytrunc_le_int (q : ℚ) (n : ℤ) (hq : q ≤ (n : ℚ)) (hn : 0 ≤ n) :
    pytrunc q ≤ n := by
  unfold pytrunc
  by_cases h : 0 ≤ q
  · rw [if_pos h]
    exact (Int.floor_mono hq).trans (le_of_eq (Int.floor_intCast n))
  · rw [if_neg h]
    have h1 : ⌈q⌉ ≤ 0 := Int.ceil_le.mpr (by push_cast; linarith)
    omega

lemma clip_bounds (a b : ℚ) (W : ℤ) (hab : a ≤ b) (hb : 0 ≤ b)
    (haW : a ≤ (W : ℚ)) (hW : 0 ≤ W) :
    0 ≤ max (pytrunc a) 0 ∧ max (pytrunc a) 0 ≤ min (pytrunc b) W ∧
      min (pytrunc b) W ≤ W := by
  have h1 := pytrunc_mono a b hab
  have h2 := pytrunc_nonneg b hb
  have h3 := pytrunc_le_int a W haW hW
  omega

lemma flip_preserves (lo hi W : ℤ) (flip : Bool) (h0 : 0 ≤ lo)
    (h1 : lo ≤ hi) (h2 : hi ≤ W) :
    0 ≤ (if flip then W - hi else lo) ∧
    (if flip then W - hi else lo) ≤ (if flip then W - lo else hi) ∧
    (if flip then W - lo else hi) ≤ W := by
  cases flip <;> simp <;> omega

/-- C8 (amended): `_calc_zoom_coords` returns `(None, None)` when the
draw-bounds width or height or either component of `self.bounds` is zero;
otherwise — provided additionally that the draw-bounds widths are positive,
the rendered-image rect has positive size, the source array has at least one
pixel per dimension, and the draw-bounds rectangle overlaps the rendered
image rect — it returns clipped, correctly ordered index bounds (the
ordering surviving axis flips) together with `screen_rect` equal to
`draw_bounds`. -/
theorem calc_zoom_coords_bounds (env : ImageSourceEnv) (s : PlotState)
    (imageRect : ℚ × ℚ × ℚ × ℚ) :
    ((s.drawBounds.2.2.1 = 0 ∨ s.drawBounds.2.2.2 = 0 ∨ s.boundsW = 0 ∨
        s.boundsH = 0) → calc_zoom_coords env s imageRect = none) ∧
    (0 < s.drawBounds.2.2.1 → 0 < s.drawBounds.2.2.2 →
     s.boundsW ≠ 0 → s.boundsH ≠ 0 →
     0 < imageRect.2.2.1 → 0 < imageRect.2.2.2 →
     1 ≤ env.getWidth → 1 ≤ env.getHeight →
     imageRect.1 ≤ s.drawBounds.1 + s.drawBounds.2.2.1 →
     s.drawBounds.1 ≤ imageRect.1 + imageRect.2.2.1 →
     imageRect.2.1 ≤ s.drawBounds.2.1 + s.drawBounds.2.2.2 →
     s.drawBounds.2.1 ≤ imageRect.2.1 + imageRect.2.2.2 →
     ∃ colMin colMax rowMin rowMax,
       calc_zoom_coords env s imageRect =
         some ((colMin, colMax, rowMin, rowMax), s.drawBounds) ∧
       0 ≤ colMin ∧ colMin ≤ colMax ∧ colMax ≤ env.getWidth - 1 ∧
       0 ≤ rowMin ∧ rowMin ≤ rowMax ∧ rowMax ≤ env.getHeight - 1) := by
  constructor
  · intro h
    simp only [calc_zoom_coords]
    rw [if_pos h]
  · intro hsubW hsubH hbW hbH himW himH hgw hgh hox1 hox2 hoy1 hoy2
    have hguard : ¬(s.drawBounds.2.2.1 = 0 ∨ s.drawBounds.2.2.2 = 0 ∨
        s.boundsW = 0 ∨ s.boundsH = 0) := by
      push_neg
      exact ⟨ne_of_gt hsubW, ne_of_gt hsubH, hbW, hbH⟩
    have hW : (0 : ℤ) ≤ env.getWidth - 1 := by omega
    have hH : (0 : ℤ) ≤ env.getHeight - 1 := by omega
    have hWq : (0 : ℚ) ≤ ((env.getWidth - 1 : ℤ) : ℚ) := by exact_mod_cast hW
    have hHq : (0 : ℚ) ≤ ((env.getHeight - 1 : ℤ) : ℚ) := by exact_mod_cast hH
    have habX : (s.drawBounds.1 - imageRect.1) / imageRect.2.2.1 *
        ((env.getWidth - 1 : ℤ) : ℚ) ≤
        (s.drawBounds.1 - imageRect.1 + s.drawBounds.2.2.1) / imageRect.2.2.1 *
        ((env.getWidth - 1 : ℤ) : ℚ) := by
      apply mul_le_mul_of_nonneg_right _ hWq
      exact (div_le_div_iff_of_pos_right himW).mpr (by linarith)
    have hbX : (0 : ℚ) ≤ (s.drawBounds.1 - imageRect.1 + s.drawBounds.2.2.1) /
        imageRect.2.2.1 * ((env.getWidth - 1 : ℤ) : ℚ) := by
      apply mul_nonneg _ hWq
      apply div_nonneg _ (le_of_lt himW)
      linarith
    have haWX : (s.drawBounds.1 - imageRect.1) / imageRect.2.2.1 *
        ((env.getWidth - 1 : ℤ) : ℚ) ≤ ((env.getWidth - 1 : ℤ) : ℚ) := by
      have h1 : (s.drawBounds.1 - imageRect.1) / imageRect.2.2.1 ≤ 1 :=
        (div_le_one himW).mpr (by linarith)
      calc (s.drawBounds.1 - imageRect.1) / imageRect.2.2.1 *
            ((env.getWidth - 1 : ℤ) : ℚ)
          ≤ 1 * ((env.getWidth - 1 : ℤ) : ℚ) :=
            mul_le_mul_of_nonneg_right h1 hWq
        _ = ((env.getWidth - 1 : ℤ) : ℚ) := one_mul _
    have habY : (s.drawBounds.2.1 - imageRect.2.1) / imageRect.2.2.2 *
        ((env.getHeight - 1 : ℤ) : ℚ) ≤
        (s.drawBounds.2.1 - imageRect.2.1 + s.drawBounds.2.2.2) /
        imageRect.2.2.2 * ((env.getHeight - 1 : ℤ) : ℚ) := by
      apply mul_le_mul_of_nonneg_right _ hHq
      exact (div_le_div_iff_of_pos_right himH).mpr (by linarith)
    have hbY : (0 : ℚ) ≤ (s.drawBounds.2.1 - imageRect.2.1 +
        s.drawBounds.2.2.2) / imageRect.2.2.2 *
        ((env.getHeight - 1 : ℤ) : ℚ) := by
      apply mul_nonneg _ hHq
      apply div_nonneg _ (le_of_lt himH)
      linarith
    have haHY : (s.drawBounds.2.1 - imageRect.2.1) / imageRect.2.2.2 *
        ((env.getHeight - 1 : ℤ) : ℚ) ≤ ((env.getHeight - 1 : ℤ) : ℚ) := by
      have h1 : (s.drawBounds.2.1 - imageRect.2.1) / imageRect.2.2.2 ≤ 1 :=
        (div_le_one himH).mpr (by linarith)
      calc (s.drawBounds.2.1 - imageRect.2.1) / imageRect.2.2.2 *
            ((env.getHeight - 1 : ℤ) : ℚ)
          ≤ 1 * ((env.getHeight - 1 : ℤ) : ℚ) :=
            mul_le_mul_of_nonneg_right h1 hHq
        _ = ((env.getHeight - 1 : ℤ) : ℚ) := one_mul _
    have hcol := clip_bounds _ _ (env.getWidth - 1) habX hbX haWX hW
    have hrow := clip_bounds _ _ (env.getHeight - 1) habY hbY haHY hH
    have hcolF := flip_preserves _ _ (env.getWidth - 1) s.xAxisIsFlipped
      hcol.1 hcol.2.1 hcol.2.2
    have hrowF := flip_preserves _ _ (env.getHeight - 1) s.yAxisIsFlipped
      hrow.1 hrow.2.1 hrow.2.2
    simp only [calc_zoom_coords]
    rw [if_neg hguard]
    exact ⟨_, _, _, _, rfl, hcolF.1, hcolF.2.1, hcolF.2.2,
      hrowF.1, hrowF.2.1, hrowF.2.2⟩

/-- C8 counterexample: with draw bounds `(-200, 0, 10, 10)` lying left of the
rendered image rect `(0, 0, 100, 100)` over an 11×11 array (and none of the
guard quantities zero), `_calc_zoom_coords` does not return `(None, None)`
but yields `col_min = 0 > col_max = -19`, refuting the claimed
`0 ≤ col_min ≤ col_max`. -/
theorem calc_zoom_coords_unordered :
    calc_zoom_coords env0 sCex (0, 0, 100, 100) =
      some ((0, -19, 0, 1), (-200, 0, 10, 10)) ∧
    ¬((0 : ℤ) ≤ -19) := by
  constructor
  · norm_num [calc_zoom_coords, pytrunc, env0, sCex, Int.ceil_neg]
  · decide

theorem calc_zoom_coords_bounds_witness :
    ∃ colMin colMax rowMin rowMax,
      calc_zoom_coords env0 s0 (0, 0, 100, 100) =
        some ((colMin, colMax, rowMin, rowMax), s0.drawBounds) ∧
      0 ≤ colMin ∧ colMin ≤ colMax ∧ colMax ≤ env0.getWidth - 1 ∧
      0 ≤ rowMin ∧ rowMin ≤ rowMax ∧ rowMax ≤ env0.getHeight - 1 :=
  (calc_zoom_coords_bounds env0 s0 (0, 0, 100, 100)).2
    (by norm_num [s0]) (by norm_num [s0]) (by norm_num [s0])
    (by norm_num [s0]) (by norm_num) (by norm_num)
    (by norm_num [env0]) (by norm_num [env0])
    (by norm_num [s0]) (by norm_num [s0]) (by norm_num [s0])
    (by norm_num [s0])
